import Mathlib

/-!
A shallow embedding of `file_to_markdown/main.py` (an interactive CLI that
resolves user input into text content, stages it in a scratch file, asks for
an output path, runs an external batch tool over the staged file, and copies
the result to the output path), together with theorems settling the frozen
claims about its specification.

Modelling conventions:
* Python strings are Lean `String`s; `str.strip()` is `pyStrip` (whitespace
  per `Char.isWhitespace`, which covers the ASCII whitespace relevant here).
* The file system visible to the resolver is an association list from path
  strings to entries (regular file with content, or directory).  Path lookups
  never raise in the model (the `OSError` fallback of the source treats a
  failed lookup as pasted content, which coincides with the "not present"
  case here).
* Interactive input is an explicit event list: each paste-loop read yields a
  line, an idle timeout, end of stream, an interrupt, or another input error.
  An event list that runs out without a terminating event corresponds to the
  real program blocking forever on `input`, modelled as result `none`.
* The `main` pipeline is modelled as a pure function from all its inputs to a
  trace of observable events (prompts, file-system effects, messages), a
  final outcome, and the final content of the staged scratch file.
-/

namespace FileToMarkdown

/-! ## Python `str.strip` and `"\n".join` -/

/-- Whitespace predicate used by `pyStrip` (Python `str.strip()`). -/
def isWS (c : Char) : Bool := c.isWhitespace

/-- Remove leading and trailing whitespace from a character list. -/
def stripChars (l : List Char) : List Char :=
  ((l.dropWhile isWS).reverse.dropWhile isWS).reverse

/-- Python `s.strip()`. -/
def pyStrip (s : String) : String := String.mk (stripChars s.toList)

/-- Python `"\n".join(lines)`. -/
def joinNl : List String → String
  | [] => ""
  | [s] => s
  | s :: rest => s ++ "\n" ++ joinNl rest

/-! ## File-system model -/

/-- A file-system entry: a regular file with (decoded) text content, or a
directory. -/
inductive FSEntry
  | file (content : String)
  | directory
deriving DecidableEq

/-- The file system as seen by the resolver: path string → entry. -/
abbrev FS := List (String × FSEntry)

/-- Lookup of a path in the modelled file system. -/
def FS.find (fs : FS) (p : String) : Option FSEntry :=
  (List.find? (fun pe => pe.1 == p) fs).map (·.2)

/-- Python `Path(p).is_file()`. -/
def FS.is_file (fs : FS) (p : String) : Bool :=
  match fs.find p with
  | some (.file _) => true
  | _ => false

/-- Python `Path(p).exists()`. -/
def FS.path_exists (fs : FS) (p : String) : Bool := (fs.find p).isSome

/-- Python `Path(p).is_dir()` (an existing entry that is a directory). -/
def FS.is_dir (fs : FS) (p : String) : Bool :=
  match fs.find p with
  | some .directory => true
  | _ => false

/-- Python `Path(p).read_text()` for an existing file (empty otherwise). -/
def FS.read (fs : FS) (p : String) : String :=
  match fs.find p with
  | some (.file c) => c
  | _ => ""

/-- Well-formedness of the modelled file system: no entry is registered under
the empty path (true of every real file system). -/
def FS.wf (fs : FS) : Bool := fs.all (fun pe => pe.1 != "")

/-! ## Input Resolver (`get_source_content`) -/

/-- One event on the interactive input stream inside the paste loop. -/
inductive InEvent
  | line (s : String)
  | timeout
  | eofEnd
  | interrupt
  | inputError
deriving DecidableEq

/-- The first `input()` call: either a line of text or a user interrupt. -/
inductive FirstLine
  | text (raw : String)
  | interrupt
deriving DecidableEq

/-- Result of the paste-acquisition loop. -/
inductive PasteRes
  | finalized (ls : List String)
  | aborted
deriving DecidableEq

/-- The `while True` paste loop of `get_source_content` (lines 83-108 of the
source): each successfully read line is appended; `TimeoutOccurred`,
`EOFError` and any other input error break out of the loop with the lines
accumulated so far; `KeyboardInterrupt` makes the whole resolution return the
empty string.  `none` means the event list ran out with the loop still
blocked on `inputimeout`. -/
def pasteLoop (acc : List String) : List InEvent → Option PasteRes
  | [] => none
  | .line s :: rest => pasteLoop (acc ++ [s]) rest
  | .timeout :: _ => some (.finalized acc)
  | .eofEnd :: _ => some (.finalized acc)
  | .inputError :: _ => some (.finalized acc)
  | .interrupt :: _ => some .aborted

/-- Output of `get_source_content`: the returned string (`none` = the call
blocks forever), whether control reached the paste-mode section (line 74
onward), and whether the directory disambiguation error (line 60) was
printed. -/
structure ResolveOut where
  result : Option String
  entered_paste : Bool
  dir_error : Bool
deriving DecidableEq

/-- Common tail of `get_source_content` (lines 110-114): join the accumulated
lines; a whitespace-only accumulation is reported as "No content provided."
and the empty string is returned. -/
def paste_finish (lines0 : List String) (events : List InEvent) (derr : Bool) :
    ResolveOut :=
  match pasteLoop lines0 events with
  | none => ⟨none, true, derr⟩
  | some .aborted => ⟨some "", true, derr⟩
  | some (.finalized ls) =>
    let pasted := joinNl ls
    ⟨some (if pyStrip pasted = "" then "" else pasted), true, derr⟩

/-- `get_source_content` (source lines 29-114).  The first line is stripped;
an interrupt there returns `""`.  A non-empty first line naming an existing
regular file is read and returned directly.  A first line naming an existing
directory prints a disambiguation error and falls through to paste mode.
Anything else falls through to paste mode, seeding the accumulated lines with
the first line exactly when it is non-empty and not a readable file (source
line 78). -/
def get_source_content (fs : FS) (first : FirstLine) (events : List InEvent) :
    ResolveOut :=
  match first with
  | .interrupt => ⟨some "", false, false⟩
  | .text raw =>
    let t := pyStrip raw
    if t = "" then
      paste_finish [] events false
    else if fs.is_file t then
      ⟨some (fs.read t), false, false⟩
    else
      let derr := fs.path_exists t
      let lines0 :=
        if t ≠ "" ∧ ¬(fs.is_file t = true ∧ fs.path_exists t = true) then [t]
        else []
      paste_finish lines0 events derr

/-! ## Basic lemmas about the string utilities -/

theorem dropWhile_idem (p : Char → Bool) (l : List Char) :
    (l.dropWhile p).dropWhile p = l.dropWhile p := by
  induction l with
  | nil => rfl
  | cons a l ih =>
    by_cases h : p a <;> simp [List.dropWhile_cons, h, ih]

theorem head?_dropWhile_not (p : Char → Bool) (l : List Char) (c : Char)
    (h : (l.dropWhile p).head? = some c) : p c = false := by
  induction l with
  | nil => simp [List.dropWhile] at h
  | cons a l ih =>
    by_cases hp : p a
    · simp [List.dropWhile_cons, hp] at h
      exact ih h
    · simp [List.dropWhile_cons, hp] at h
      subst h
      simp [hp]

theorem getLast?_dropWhile (p : Char → Bool) (l : List Char) :
    l.dropWhile p = [] ∨ (l.dropWhile p).getLast? = l.getLast? := by
  induction l with
  | nil => exact Or.inl rfl
  | cons a l ih =>
    by_cases hp : p a
    · rcases ih with h | h
      · exact Or.inl (by simp [List.dropWhile_cons, hp, h])
      · rcases eq_or_ne l [] with rfl | hl
        · exact Or.inl (by simp [List.dropWhile_cons, hp, List.dropWhile])
        · refine Or.inr ?_
          rw [List.dropWhile_cons, if_pos hp, h]
          cases l with
          | nil => exact absurd rfl hl
          | cons b m => simp [List.getLast?_cons_cons]
    · exact Or.inr (by simp [List.dropWhile_cons, hp])

theorem dropWhile_eq_self_of_head (p : Char → Bool) (l : List Char)
    (h : ∀ c, l.head? = some c → p c = false) : l.dropWhile p = l := by
  cases l with
  | nil => rfl
  | cons a l =>
    have := h a rfl
    simp [List.dropWhile_cons, this]

theorem stripChars_idem (l : List Char) :
    stripChars (stripChars l) = stripChars l := by
  unfold stripChars
  set a := l.dropWhile isWS with ha
  set b := (a.reverse).dropWhile isWS with hb
  -- First: stripping whitespace from the front of `b.reverse` does nothing.
  have hfront : (b.reverse).dropWhile isWS = b.reverse := by
    apply dropWhile_eq_self_of_head
    intro c hc
    rw [List.head?_reverse] at hc
    rcases getLast?_dropWhile isWS a.reverse with h | h
    · rw [← hb] at h
      rw [h] at hc
      simp at hc
    · rw [← hb] at h
      rw [h] at hc
      rw [List.getLast?_reverse] at hc
      exact head?_dropWhile_not isWS l c (by rw [← ha]; exact hc)
  rw [hfront, List.reverse_reverse]
  have hbb : List.dropWhile isWS b = b := by
    rw [hb]; exact dropWhile_idem isWS a.reverse
  rw [hbb]

theorem pyStrip_idem (s : String) : pyStrip (pyStrip s) = pyStrip s := by
  unfold pyStrip
  have : (String.mk (stripChars s.toList)).toList = stripChars s.toList := rfl
  rw [this, stripChars_idem]

theorem joinNl_single (s : String) : joinNl [s] = s := rfl

/-- Accumulation behaviour of the paste loop: delivering `ls` as lines and
then an idle timeout finalizes with the seed extended by exactly `ls`. -/
theorem pasteLoop_lines (acc ls : List String) :
    pasteLoop acc (ls.map .line ++ [.timeout]) = some (.finalized (acc ++ ls)) := by
  induction ls generalizing acc with
  | nil => simp [pasteLoop]
  | cons a ls ih =>
    simp only [List.map_cons, List.cons_append, pasteLoop]
    simp [ih]

/-- A user interrupt at the first-line prompt makes the resolver return
`""` (source lines 42-44). -/
theorem get_source_content_interrupt_first (fs : FS) (events : List InEvent) :
    (get_source_content fs .interrupt events).result = some "" := rfl

/-- Interrupt events abort the paste loop (source lines 103-105). -/
theorem pasteLoop_interrupt (acc ls : List String) (rest : List InEvent) :
    pasteLoop acc (ls.map .line ++ .interrupt :: rest) = some .aborted := by
  induction ls generalizing acc with
  | nil => rfl
  | cons a ls ih =>
    simp only [List.map_cons, List.cons_append, pasteLoop]
    exact ih (acc ++ [a])

/-- A user interrupt during the paste loop makes the resolver return `""`. -/
theorem get_source_content_interrupt_paste (fs : FS) (raw : String)
    (ls : List String) (rest : List InEvent)
    (hnf : fs.is_file (pyStrip raw) = false) :
    (get_source_content fs (.text raw) (ls.map .line ++ .interrupt :: rest)).result
      = some "" := by
  simp only [get_source_content]
  by_cases ht : pyStrip raw = ""
  · rw [if_pos ht]
    simp [paste_finish, pasteLoop_interrupt]
  · have hnf' : ¬ fs.is_file (pyStrip raw) = true := by rw [hnf]; simp
    rw [if_neg ht, if_neg hnf']
    simp [paste_finish, pasteLoop_interrupt]

/-! ## Inversion lemmas for the file-system model -/

theorem FS.find_ne_empty {fs : FS} {p : String} {e : FSEntry}
    (hwf : fs.wf = true) (h : fs.find p = some e) : p ≠ "" := by
  unfold FS.find at h
  rcases Option.map_eq_some'.mp h with ⟨pe, hfind, _⟩
  have hmem : pe ∈ fs := List.mem_of_find?_eq_some hfind
  have hpred := List.find?_some hfind
  have hp : pe.1 = p := by simpa using hpred
  have := (List.all_eq_true.mp hwf) pe hmem
  simp only [bne_iff_ne, ne_eq] at this
  rw [hp] at this
  exact this

theorem FS.is_file_find {fs : FS} {p : String} (h : fs.is_file p = true) :
    ∃ c, fs.find p = some (.file c) := by
  unfold FS.is_file at h
  rcases hf : fs.find p with _ | e
  · rw [hf] at h; simp at h
  · cases e with
    | file c => exact ⟨c, rfl⟩
    | directory => rw [hf] at h; simp at h

theorem FS.is_dir_find {fs : FS} {p : String} (h : fs.is_dir p = true) :
    fs.find p = some .directory := by
  unfold FS.is_dir at h
  rcases hf : fs.find p with _ | e
  · rw [hf] at h; simp at h
  · cases e with
    | file c => rw [hf] at h; simp at h
    | directory => rfl

theorem FS.is_file_false_of_not_exists {fs : FS} {p : String}
    (h : fs.path_exists p = false) : fs.is_file p = false := by
  unfold FS.path_exists at h
  unfold FS.is_file
  rcases hf : fs.find p with _ | e
  · rfl
  · rw [hf] at h; simp at h

theorem FS.is_file_false_of_is_dir {fs : FS} {p : String}
    (h : fs.is_dir p = true) : fs.is_file p = false := by
  unfold FS.is_file
  rw [FS.is_dir_find h]

theorem FS.path_exists_of_is_dir {fs : FS} {p : String}
    (h : fs.is_dir p = true) : fs.path_exists p = true := by
  unfold FS.path_exists
  rw [FS.is_dir_find h]
  rfl

/-! ## Resolver: behaviour on the paste path -/

/-- With an empty (after strip) first line, the resolver enters paste mode
with an empty seed; lines delivered before the idle timeout are joined. -/
theorem resolver_paste_empty_first (fs : FS) (raw : String) (ls : List String)
    (ht : pyStrip raw = "") :
    get_source_content fs (.text raw) (ls.map .line ++ [.timeout]) =
      ⟨some (if pyStrip (joinNl ls) = "" then "" else joinNl ls), true, false⟩ := by
  simp [get_source_content, ht, paste_finish, pasteLoop_lines]

/-- With a non-empty first line that is not an existing regular file, the
resolver enters paste mode seeded with the stripped first line. -/
theorem resolver_paste_nonempty_first (fs : FS) (raw : String) (ls : List String)
    (ht : pyStrip raw ≠ "") (hnf : fs.is_file (pyStrip raw) = false) :
    get_source_content fs (.text raw) (ls.map .line ++ [.timeout]) =
      ⟨some (if pyStrip (joinNl (pyStrip raw :: ls)) = ""
             then "" else joinNl (pyStrip raw :: ls)),
       true, fs.path_exists (pyStrip raw)⟩ := by
  have hnf' : ¬ fs.is_file (pyStrip raw) = true := by rw [hnf]; simp
  have hcond : pyStrip raw ≠ "" ∧
      ¬(fs.is_file (pyStrip raw) = true ∧ fs.path_exists (pyStrip raw) = true) :=
    ⟨ht, fun hc => hnf' hc.1⟩
  simp only [get_source_content]
  rw [if_neg ht, if_neg hnf', if_pos hcond]
  simp only [paste_finish, pasteLoop_lines, List.singleton_append]

/-!
## Claim C1

For every first line that is empty after trimming, or that does not name an
existing file-system path, the resolver enters the paste-acquisition loop and
(per the claim) returns exactly the delivered lines joined by newlines.  The
code deviates in one corner: when the joined text is whitespace-only it
returns the empty string instead (source lines 111-113), so the claim as
stated fails; the amended claim adds that proviso.
-/

/-- C1 counterexample: empty first line, a single whitespace-only pasted line
`" "`, then the idle timeout.  The claim predicts content `" "` (the
delivered lines joined by newlines); the code returns `""`. -/
theorem C1_counterexample :
    (get_source_content [] (.text "") [.line " ", .timeout]).result = some "" ∧
    (get_source_content [] (.text "") [.line " ", .timeout]).result ≠
      some (joinNl [" "]) := by
  constructor
  · rfl
  · decide

/-- C1 (amended): for a first line that does not name an existing path, the
resolver enters the paste loop; the content returned on idle timeout is the
delivered lines joined by newlines — with a non-empty non-path first line as
first element — unless that joined text is whitespace-only, in which case the
empty string is returned; with zero additional lines after a non-empty first
line the content is the first line alone. -/
theorem C1_theorem (fs : FS) (raw : String) (ls : List String)
    (hnp : fs.path_exists (pyStrip raw) = false) :
    (get_source_content fs (.text raw) (ls.map .line ++ [.timeout])).entered_paste
        = true ∧
    (get_source_content fs (.text raw) (ls.map .line ++ [.timeout])).result =
      some (if pyStrip (joinNl ((if pyStrip raw = "" then [] else [pyStrip raw]) ++ ls)) = ""
            then "" else joinNl ((if pyStrip raw = "" then [] else [pyStrip raw]) ++ ls)) ∧
    (pyStrip raw ≠ "" → ls = [] →
      (get_source_content fs (.text raw) (ls.map .line ++ [.timeout])).result =
        some (pyStrip raw)) := by
  have hnf : fs.is_file (pyStrip raw) = false := FS.is_file_false_of_not_exists hnp
  by_cases ht : pyStrip raw = ""
  · rw [resolver_paste_empty_first fs raw ls ht]
    refine ⟨rfl, by simp [ht], fun h _ => absurd ht h⟩
  · rw [resolver_paste_nonempty_first fs raw ls ht hnf]
    refine ⟨rfl, by simp [ht], ?_⟩
    intro _ hls
    subst hls
    have hj : joinNl [pyStrip raw] = pyStrip raw := joinNl_single _
    simp only [if_neg ht, List.nil_append, hj]
    rw [pyStrip_idem raw, if_neg ht]

/-- C1 witness: concrete instance of the amended theorem with first line
`"abc"` (not a path in the empty file system) and one pasted line `"x"`. -/
theorem C1_witness :
    FS.path_exists [] (pyStrip "abc") = false ∧
    ((get_source_content [] (.text "abc") (["x"].map .line ++ [.timeout])).entered_paste
        = true ∧
    (get_source_content [] (.text "abc") (["x"].map .line ++ [.timeout])).result =
      some (if pyStrip (joinNl ((if pyStrip "abc" = "" then [] else [pyStrip "abc"]) ++ ["x"])) = ""
            then "" else joinNl ((if pyStrip "abc" = "" then [] else [pyStrip "abc"]) ++ ["x"])) ∧
    (pyStrip "abc" ≠ "" → ["x"] = ([] : List String) →
      (get_source_content [] (.text "abc") (["x"].map .line ++ [.timeout])).result =
        some (pyStrip "abc"))) :=
  ⟨by decide, C1_theorem [] "abc" ["x"] (by decide)⟩

/-!
## Claim C2

The claim says a first line naming an existing directory causes a
disambiguation error and a re-prompt, and does *not* fall through to paste
mode with the directory string as content.  The code (source lines 59-61 and
78-79) prints the error and then falls through to paste mode, seeding the
accumulated content with the directory string; there is no re-prompt.
-/

/-- A file system containing a single directory, for claim C2. -/
def dirFS : FS := [("somedir", .directory)]

/-- C2 counterexample: with first line `"somedir"` naming an existing
directory and an immediate idle timeout, the resolver enters paste mode and
returns the directory string itself as content — the claim asserts this never
happens. -/
theorem C2_counterexample :
    (get_source_content dirFS (.text "somedir") [.timeout]).entered_paste = true ∧
    (get_source_content dirFS (.text "somedir") [.timeout]).result = some "somedir" := by
  refine ⟨rfl, by decide⟩

/-- C2 (amended): for every first line whose trimmed text names an existing
directory, the resolver reports the disambiguation error and then falls
through to paste mode with the directory string as the first element of the
accumulated content (joined with any further delivered lines); it does not
re-prompt. -/
theorem C2_theorem (fs : FS) (raw : String) (ls : List String)
    (hwf : fs.wf = true) (hd : fs.is_dir (pyStrip raw) = true) :
    (get_source_content fs (.text raw) (ls.map .line ++ [.timeout])).dir_error = true ∧
    (get_source_content fs (.text raw) (ls.map .line ++ [.timeout])).entered_paste
        = true ∧
    (get_source_content fs (.text raw) (ls.map .line ++ [.timeout])).result =
      some (if pyStrip (joinNl (pyStrip raw :: ls)) = ""
            then "" else joinNl (pyStrip raw :: ls)) := by
  have ht : pyStrip raw ≠ "" := FS.find_ne_empty hwf (FS.is_dir_find hd)
  have hnf : fs.is_file (pyStrip raw) = false := FS.is_file_false_of_is_dir hd
  rw [resolver_paste_nonempty_first fs raw ls ht hnf]
  exact ⟨FS.path_exists_of_is_dir hd, rfl, rfl⟩

/-- C2 witness: concrete instance of the amended theorem on `dirFS` with one
further pasted line. -/
theorem C2_witness :
    FS.wf dirFS = true ∧ FS.is_dir dirFS (pyStrip "somedir") = true ∧
    ((get_source_content dirFS (.text "somedir") (["y"].map .line ++ [.timeout])).dir_error = true ∧
    (get_source_content dirFS (.text "somedir") (["y"].map .line ++ [.timeout])).entered_paste
        = true ∧
    (get_source_content dirFS (.text "somedir") (["y"].map .line ++ [.timeout])).result =
      some (if pyStrip (joinNl (pyStrip "somedir" :: ["y"])) = ""
            then "" else joinNl (pyStrip "somedir" :: ["y"]))) :=
  ⟨by decide, by decide, C2_theorem dirFS "somedir" ["y"] (by decide) (by decide)⟩

/-!
## Claim C4

For every first line whose trimmed text names an existing regular file, the
resolver returns that file's content and never enters the paste loop.  This
matches the code (source lines 54-58).
-/

/-- C4: a first line naming an existing regular file makes the resolver
return exactly that file's content, without entering the paste loop,
regardless of what would arrive on the input stream afterwards. -/
theorem C4_theorem (fs : FS) (raw : String) (events : List InEvent)
    (hwf : fs.wf = true) (hf : fs.is_file (pyStrip raw) = true) :
    (get_source_content fs (.text raw) events).result = some (fs.read (pyStrip raw)) ∧
    (get_source_content fs (.text raw) events).entered_paste = false := by
  obtain ⟨c, hfind⟩ := FS.is_file_find hf
  have ht : pyStrip raw ≠ "" := FS.find_ne_empty hwf hfind
  simp only [get_source_content]
  rw [if_neg ht, if_pos hf]
  exact ⟨rfl, rfl⟩

/-- C4 witness: a one-file file system; the first line (with surrounding
whitespace, which the code strips) names the file, whose content is
returned even though pasted lines would have been available. -/
theorem C4_witness :
    FS.wf [("notes.txt", FSEntry.file "hello world")] = true ∧
    FS.is_file [("notes.txt", FSEntry.file "hello world")] (pyStrip " notes.txt ") = true ∧
    ((get_source_content [("notes.txt", FSEntry.file "hello world")]
        (.text " notes.txt ") [.line "junk", .timeout]).result =
      some (FS.read [("notes.txt", FSEntry.file "hello world")] (pyStrip " notes.txt ")) ∧
    (get_source_content [("notes.txt", FSEntry.file "hello world")]
        (.text " notes.txt ") [.line "junk", .timeout]).entered_paste = false) :=
  ⟨by decide, by decide,
   C4_theorem [("notes.txt", FSEntry.file "hello world")] " notes.txt "
     [.line "junk", .timeout] (by decide) (by decide)⟩

/-!
## Output Path Normalizer (`get_output_file_path`, lines 126-144)

The code builds `pathlib.Path(user_input)`, forces the `.md` suffix when the
current suffix does not match case-insensitively, and creates the parent
directory.  We model `pathlib` (POSIX flavour) faithfully: a path is parsed
into components by splitting on `/` and dropping empty and `"."` components;
`name` is the last component (empty for paths such as `"."` or `"/"`);
`suffix` is the part of the name from its last dot, provided that dot is
neither the first nor the last character of the name; `with_suffix` drops the
old suffix, appends the new one, and raises `ValueError` (modelled as `none`)
when the name is empty — the `except Exception` at line 143 turns that into a
re-prompt.
-/

/-- Split a character list at its last `'.'`: `some (pre, post)` with
`l = pre ++ '.' :: post` and no `'.'` in `post`; `none` if there is no dot. -/
def splitLastDot : List Char → Option (List Char × List Char)
  | [] => none
  | c :: rest =>
    match splitLastDot rest with
    | some (pre, post) => some (c :: pre, post)
    | none => if c = '.' then some ([], rest) else none

/-- `PurePath(name).suffix` for a single name component. -/
def nameSuffix (n : String) : String :=
  match splitLastDot n.toList with
  | some (pre, post) =>
    if pre ≠ [] ∧ post ≠ [] then String.mk ('.' :: post) else ""
  | none => ""

/-- `PurePath(name).with_suffix(suff)` acting on the name component:
drop the old suffix (if any) and append `suff`. -/
def withSuffixName (n suff : String) : String :=
  let old := nameSuffix n
  if old = "" then n ++ suff
  else String.mk (n.toList.take (n.length - old.length)) ++ suff

/-- Python `str.lower()` (ASCII, as used on suffixes here). -/
def strLower (s : String) : String := String.mk (s.toList.map Char.toLower)

/-- A parsed `pathlib` path (POSIX flavour): whether it is absolute, and its
non-empty, non-`"."` components. -/
structure PyPath where
  isAbs : Bool
  parts : List String
deriving DecidableEq

/-- Structural split of a character list on `'/'`. -/
def splitSlashAux : List Char → List Char → List (List Char)
  | [], cur => [cur.reverse]
  | c :: rest, cur =>
    if c = '/' then cur.reverse :: splitSlashAux rest []
    else splitSlashAux rest (c :: cur)

/-- `pathlib.Path(s)` (POSIX flavour). -/
def parsePath (s : String) : PyPath :=
  { isAbs := match s.toList with | '/' :: _ => true | _ => false,
    parts := ((splitSlashAux s.toList []).map String.mk).filter
      (fun c => c ≠ "" ∧ c ≠ ".") }

/-- `Path.name`: the final component, or `""` when there is none. -/
def PyPath.name (p : PyPath) : String := p.parts.getLast?.getD ""

/-- `Path.suffix`. -/
def PyPath.suffix (p : PyPath) : String := nameSuffix p.name

/-- `Path.parent`. -/
def PyPath.parent (p : PyPath) : PyPath := ⟨p.isAbs, p.parts.dropLast⟩

/-- `Path.with_suffix(suff)`: `none` models the `ValueError` raised on an
empty name. -/
def PyPath.with_suffix (p : PyPath) (suff : String) : Option PyPath :=
  if p.name = "" then none
  else some ⟨p.isAbs, p.parts.dropLast ++ [withSuffixName p.name suff]⟩

/-- The `.md`-forcing step of `get_output_file_path` (source lines 134-137):
if the suffix lowercased is not `".md"`, replace it; otherwise keep the path
unchanged.  `none` models the `ValueError` from `with_suffix` (caught at line
143, leading to a re-prompt). -/
def normalizePath (p : PyPath) : Option PyPath :=
  if strLower p.suffix = ".md" then some p else p.with_suffix ".md"

/-- One normalization attempt on a (stripped) user input string. -/
def normalizeAttempt (t : String) : Option PyPath := normalizePath (parsePath t)

/-! ### Lemmas about the suffix model -/

theorem splitLastDot_append_md (l : List Char) :
    splitLastDot (l ++ ['.', 'm', 'd']) = some (l, ['m', 'd']) := by
  induction l with
  | nil => rfl
  | cons c l ih => simp [splitLastDot, ih]

theorem splitLastDot_eq_some {l pre post : List Char}
    (h : splitLastDot l = some (pre, post)) : l = pre ++ '.' :: post := by
  induction l generalizing pre post with
  | nil => simp [splitLastDot] at h
  | cons c rest ih =>
    unfold splitLastDot at h
    rcases hs : splitLastDot rest with _ | ⟨pre', post'⟩
    · rw [hs] at h
      by_cases hc : c = '.'
      · simp [hc] at h
        obtain ⟨h1, h2⟩ := h
        subst h1; subst h2; subst hc
        rfl
      · simp [hc] at h
    · rw [hs] at h
      simp at h
      obtain ⟨h1, h2⟩ := h
      subst h1; subst h2
      rw [ih hs]
      rfl

/-- The name produced by forcing suffix `".md"` onto a non-empty name always
has suffix exactly `".md"`. -/
theorem nameSuffix_withSuffixName_md (n : String) (hn : n ≠ "") :
    nameSuffix (withSuffixName n ".md") = ".md" := by
  have hnl : n.toList ≠ [] := by
    intro hd
    exact hn (by cases n; simp_all [String.toList])
  have hmk : ∀ pre : List Char, pre ≠ [] →
      nameSuffix (String.mk pre ++ ".md") = ".md" := by
    intro pre hpre
    have : (String.mk pre ++ (".md" : String)).toList = pre ++ ['.', 'm', 'd'] := by
      show (String.mk pre).data ++ (".md" : String).data = _
      rfl
    unfold nameSuffix
    rw [this, splitLastDot_append_md]
    simp [hpre]
  unfold withSuffixName
  by_cases hold : nameSuffix n = ""
  · rw [if_pos hold]
    have : (n ++ (".md" : String)) = String.mk n.toList ++ ".md" := by
      cases n; rfl
    rw [this]
    exact hmk n.toList hnl
  · rw [if_neg hold]
    have hsd : ∃ pre post, splitLastDot n.toList = some (pre, post) ∧
        pre ≠ [] ∧ post ≠ [] ∧ nameSuffix n = String.mk ('.' :: post) := by
      rcases hs : splitLastDot n.toList with _ | ⟨pre, post⟩
      · exact absurd (by unfold nameSuffix; rw [hs]) hold
      · by_cases hc : pre ≠ [] ∧ post ≠ []
        · exact ⟨pre, post, rfl, hc.1, hc.2,
            by unfold nameSuffix; rw [hs]; exact if_pos hc⟩
        · exact absurd (by unfold nameSuffix; rw [hs]; exact if_neg hc) hold
    obtain ⟨pre, post, hs, hpre, hpost, hsuf⟩ := hsd
    have hdecomp : n.toList = pre ++ '.' :: post := splitLastDot_eq_some hs
    have hlen : n.length - (nameSuffix n).length = pre.length := by
      rw [hsuf]
      show n.data.length - ('.' :: post).length = pre.length
      rw [show n.data = n.toList from rfl, hdecomp]
      simp
    rw [hlen, show n.toList = pre ++ '.' :: post from hdecomp,
      List.take_left pre ('.' :: post)]
    exact hmk pre hpre

/-!
## Claim C8

The claim quantifies over *every* non-empty input path string.  The code
fails on inputs whose `pathlib` name is empty: for `"."` the suffix check
sees suffix `""` (not `".md"`), `with_suffix(".md")` raises
`ValueError: ... has an empty name`, the generic handler at line 143 catches
it and re-prompts — the normalizer never returns a path for that input.  For
every input whose final component is non-empty the claim's normalization,
case-insensitive match and idempotence statements all hold.
-/

/-- C8 counterexample: the non-empty input `"."` has an empty `pathlib` name,
so `with_suffix` raises and the attempt yields no normalized path at all,
contradicting the claim's "for every non-empty input path string ... returns
a path whose extension matches `.md`". -/
theorem C8_counterexample :
    ("." : String) ≠ "" ∧ normalizeAttempt "." = none := by
  refine ⟨by decide, by decide⟩

/-- C8 (amended): for every input path string whose final `pathlib` component
is non-empty, one normalization attempt returns a path whose suffix matches
`.md` case-insensitively; if the input's suffix already matches (any letter
case) the path is returned unchanged; and the normalization is idempotent. -/
theorem C8_theorem (s : String) (h : (parsePath s).name ≠ "") :
    ∃ q, normalizeAttempt s = some q ∧ strLower q.suffix = ".md" ∧
      (strLower (parsePath s).suffix = ".md" → q = parsePath s) ∧
      normalizePath q = some q := by
  unfold normalizeAttempt normalizePath
  by_cases hm : strLower (parsePath s).suffix = ".md"
  · exact ⟨parsePath s, by rw [if_pos hm], hm, fun _ => rfl, by rw [if_pos hm]⟩
  · rw [if_neg hm]
    unfold PyPath.with_suffix
    rw [if_neg h]
    set q : PyPath :=
      ⟨(parsePath s).isAbs,
       (parsePath s).parts.dropLast ++ [withSuffixName (parsePath s).name ".md"]⟩
      with hq
    have hqname : q.name = withSuffixName (parsePath s).name ".md" := by
      simp [hq, PyPath.name]
    have hqsuf : q.suffix = ".md" := by
      unfold PyPath.suffix
      rw [hqname]
      exact nameSuffix_withSuffixName_md _ h
    have hlow : strLower q.suffix = ".md" := by rw [hqsuf]; decide
    exact ⟨q, rfl, hlow, fun hc => absurd hc hm, by rw [if_pos hlow]⟩

/-- C8 witness: instance of the amended theorem at input `"foo"` (suffix
forced to `.md`). -/
theorem C8_witness :
    (parsePath "foo").name ≠ "" ∧
    (∃ q, normalizeAttempt "foo" = some q ∧ strLower q.suffix = ".md" ∧
      (strLower (parsePath "foo").suffix = ".md" → q = parsePath "foo") ∧
      normalizePath q = some q) :=
  ⟨by decide, C8_theorem "foo" (by decide)⟩

/-! ## The `main` pipeline (source lines 146-216) -/

/-- Source constant (line 23). -/
def SCRATCH_DIR_NAME : String := "scratch-pad"

/-- Source constant (line 24). -/
def INTERMEDIATE_SOURCE_FILE_NAME : String := "file_to_markdown_source.md"

/-- Source constant (line 25). -/
def AIDER_BATCH_FILE_NAME : String := "run-aider.bat"

/-- The staged (intermediate) file's path, relative to the working
directory: `scratch-pad/file_to_markdown_source.md`. -/
def intermediate_file_path : String :=
  SCRATCH_DIR_NAME ++ "/" ++ INTERMEDIATE_SOURCE_FILE_NAME

/-- The command string passed to `subprocess.run` (source lines 174-182):
either the batch file found next to the working directory, or the bare batch
file name, to be resolved through `PATH` by the process launcher. -/
inductive BatchCmd
  | cwdPath
  | bareName
deriving DecidableEq

/-- One event on the interactive stream of the output-path prompt. -/
inductive OutEvent
  | line (s : String)
  | interrupt
deriving DecidableEq

/-- Observable events of a `main` run, in order: file-system effects,
prompts, and the user-visible messages the claims talk about. -/
inductive Ev
  | mkdirScratch
  | writeStaged (content : String)
  | sourceWrittenMsg (p : String)
  | noSourceContentMsg
  | outputPrompt
  | outputAbortedMsg
  | mkdirParentDir (p : PyPath)
  | cancelledSetupMsg
  | setupCompleteMsg (intermediate : String) (output : PyPath)
  | toolLaunch (c : BatchCmd)
  | batchFailedMsg (code : Int) (out err : String)
  | intermediateNoteMsg (p : String)
  | cmdNotFoundMsg (c : BatchCmd)
  | cancelledProcessingMsg
  | unexpectedErrorMsg
  | readStaged
  | writeOutput (p : PyPath) (content : String)
  | conversionCompleteMsg (p : PyPath)
deriving DecidableEq

/-- Does the event write to the file system? -/
def Ev.isFsWrite : Ev → Bool
  | .mkdirScratch => true
  | .writeStaged _ => true
  | .mkdirParentDir _ => true
  | .writeOutput _ _ => true
  | _ => false

/-- Is the event a write to the output target? -/
def Ev.isWriteOutput : Ev → Bool
  | .writeOutput _ _ => true
  | _ => false

/-- Does the event report the staged (intermediate) file's location to the
user?  `sourceWrittenMsg` is line 123 ("Source content written to: …"),
`setupCompleteMsg` is line 165 ("Intermediate: …"), `intermediateNoteMsg` is
line 210 ("Intermediate file '…' might contain partial results."). -/
def Ev.namesIntermediate : Ev → Bool
  | .sourceWrittenMsg _ => true
  | .setupCompleteMsg _ _ => true
  | .intermediateNoteMsg _ => true
  | _ => false

/-- Result of the output-path prompt loop. -/
inductive OutRes
  | gotPath (p : PyPath)
  | cancelled
  | noMoreInput
deriving DecidableEq

/-- `get_output_file_path` (source lines 126-144) as a trace of events plus a
result.  Empty (after strip) input re-prompts; a `ValueError` from
`with_suffix` (modelled by `normalizeAttempt = none`) is caught by the
generic handler and re-prompts; `KeyboardInterrupt` re-raises (the caller
cancels); on success the parent directory is created and the path returned. -/
def get_output_file_path : List OutEvent → List Ev × OutRes
  | [] => ([.outputPrompt], .noMoreInput)
  | .interrupt :: _ => ([.outputPrompt, .outputAbortedMsg], .cancelled)
  | .line s :: rest =>
    if pyStrip s = "" then
      (.outputPrompt :: (get_output_file_path rest).1, (get_output_file_path rest).2)
    else
      match normalizeAttempt (pyStrip s) with
      | some p => ([.outputPrompt, .mkdirParentDir p.parent], .gotPath p)
      | none =>
        (.outputPrompt :: (get_output_file_path rest).1, (get_output_file_path rest).2)

/-- Behaviour of the external tool when `main` reaches `subprocess.run`:
the process runs and exits with a code (capturing stdout/stderr), or the
launch itself fails with a non-`FileNotFoundError` error, or the user
interrupts while it runs. -/
inductive ToolRun
  | exits (code : Int) (out err : String)
  | launchFailure
  | interrupted
deriving DecidableEq

/-- Terminal outcome of a `main` run. -/
inductive Outcome
  | success (output : PyPath)
  | exitNoContent
  | cancelledSetup
  | toolFailed (code : Int) (out err : String)
  | toolNotFound
  | ioFailure
  | cancelledProcessing
  | blockedOnInput
deriving DecidableEq

/-- Is the outcome one of the fatal failures that can only occur after the
staged file has been written (tool exited nonzero, executable not found at
invocation time, or a process-launch/publish error)? -/
def Outcome.fatalAfterStaging : Outcome → Bool
  | .toolFailed _ _ _ => true
  | .toolNotFound => true
  | .ioFailure => true
  | _ => false

/-- All inputs of one `main` run: the file system seen by the resolver, the
prior content of the staged scratch file (if any), the interactive input
events, whether the batch file exists in the working directory and on
`PATH`, what the tool does if launched, the staged file's content after the
tool ran (it rewrites the file in place), and whether the final publish
write succeeds. -/
structure MainInput where
  fs : FS
  scratch0 : Option String
  first : FirstLine
  pasteEvents : List InEvent
  outEvents : List OutEvent
  cwdHasBatch : Bool
  pathHasBatch : Bool
  toolRun : ToolRun
  stagedAfterTool : String
  publishOk : Bool

/-- Result of one `main` run: the event trace, the outcome, and the final
content of the staged scratch file (`none` = does not exist). -/
structure MainOut where
  trace : List Ev
  outcome : Outcome
  scratch : Option String
deriving DecidableEq

/-- `prepare_intermediate_source_file` (source lines 116-124): create the
scratch directory, write the content (overwriting unconditionally), and
report the staged file's location. -/
def prepare_intermediate_source_file (content : String) : List Ev :=
  [.mkdirScratch, .writeStaged content, .sourceWrittenMsg intermediate_file_path]

/-- The subprocess section of `main` (source lines 174-216).  The batch file
is used from the working directory when present there, else invoked by bare
name; `subprocess.run(check=True)` raises `CalledProcessError` on a nonzero
exit (classified with exit code, stdout, stderr, plus the note about the
intermediate file), `FileNotFoundError` when the bare name is not on `PATH`,
and on success the staged file (rewritten by the tool) is copied to the
output path. -/
def run_batch (inp : MainInput) (content : String) (out : PyPath) :
    List Ev × Outcome × Option String :=
  let cmd := if inp.cwdHasBatch then BatchCmd.cwdPath else BatchCmd.bareName
  if inp.cwdHasBatch || inp.pathHasBatch then
    match inp.toolRun with
    | .exits code o e =>
      if code = 0 then
        if inp.publishOk then
          ([.toolLaunch cmd, .readStaged, .writeOutput out inp.stagedAfterTool,
            .conversionCompleteMsg out], .success out, some inp.stagedAfterTool)
        else
          ([.toolLaunch cmd, .readStaged, .unexpectedErrorMsg],
           .ioFailure, some inp.stagedAfterTool)
      else
        ([.toolLaunch cmd, .batchFailedMsg code o e,
          .intermediateNoteMsg intermediate_file_path],
         .toolFailed code o e, some inp.stagedAfterTool)
    | .launchFailure => ([.toolLaunch cmd, .unexpectedErrorMsg], .ioFailure, some content)
    | .interrupted =>
      ([.toolLaunch cmd, .cancelledProcessingMsg], .cancelledProcessing, some content)
  else
    ([.toolLaunch cmd, .cmdNotFoundMsg cmd], .toolNotFound, some content)

/-- `main` after the resolver returned `content` (source lines 151-216). -/
def mainWithContent (inp : MainInput) (content : String) : MainOut :=
  if pyStrip content = "" then ⟨[.noSourceContentMsg], .exitNoContent, inp.scratch0⟩
  else
    match (get_output_file_path inp.outEvents).2 with
    | .noMoreInput =>
      ⟨prepare_intermediate_source_file content ++ (get_output_file_path inp.outEvents).1,
       .blockedOnInput, some content⟩
    | .cancelled =>
      ⟨prepare_intermediate_source_file content ++ (get_output_file_path inp.outEvents).1
        ++ [.cancelledSetupMsg], .cancelledSetup, some content⟩
    | .gotPath out =>
      ⟨prepare_intermediate_source_file content ++ (get_output_file_path inp.outEvents).1
        ++ [.setupCompleteMsg intermediate_file_path out] ++ (run_batch inp content out).1,
       (run_batch inp content out).2.1, (run_batch inp content out).2.2⟩

/-- The whole `main` run (source lines 146-216). -/
def mainModel (inp : MainInput) : MainOut :=
  match (get_source_content inp.fs inp.first inp.pasteEvents).result with
  | none => ⟨[], .blockedOnInput, inp.scratch0⟩
  | some content => mainWithContent inp content

/-! ### Structural lemmas about the pipeline traces -/

/-- Events emitted by the output-path prompt are never output-target
writes. -/
theorem get_output_file_path_no_writeOutput (evs : List OutEvent) :
    ∀ e ∈ (get_output_file_path evs).1, e.isWriteOutput = false := by
  induction evs with
  | nil => intro e he; simp [get_output_file_path] at he; subst he; rfl
  | cons ev rest ih =>
    intro e he
    cases ev with
    | interrupt =>
      simp [get_output_file_path] at he
      rcases he with he | he <;> (subst he; rfl)
    | line s =>
      by_cases hs : pyStrip s = ""
      · simp [get_output_file_path, hs] at he
        rcases he with he | he
        · subst he; rfl
        · exact ih e he
      · rcases hn : normalizeAttempt (pyStrip s) with _ | p
        · simp [get_output_file_path, hs, hn] at he
          rcases he with he | he
          · subst he; rfl
          · exact ih e he
        · simp [get_output_file_path, hs, hn] at he
          rcases he with he | he <;> (subst he; rfl)

/-- The output-path prompt trace always starts with the prompt itself. -/
theorem get_output_file_path_starts_prompt (evs : List OutEvent) :
    ∃ tl, (get_output_file_path evs).1 = .outputPrompt :: tl := by
  cases evs with
  | nil => exact ⟨[], rfl⟩
  | cons ev rest =>
    cases ev with
    | interrupt => exact ⟨[.outputAbortedMsg], rfl⟩
    | line s =>
      by_cases hs : pyStrip s = ""
      · exact ⟨(get_output_file_path rest).1, by simp [get_output_file_path, hs]⟩
      · rcases hn : normalizeAttempt (pyStrip s) with _ | p
        · exact ⟨(get_output_file_path rest).1, by simp [get_output_file_path, hs, hn]⟩
        · exact ⟨[.mkdirParentDir p.parent], by simp [get_output_file_path, hs, hn]⟩

/-- When the resolver returns `some content`, `main` continues with that
content. -/
theorem mainModel_resolved (inp : MainInput) (content : String)
    (h1 : (get_source_content inp.fs inp.first inp.pasteEvents).result = some content) :
    mainModel inp = mainWithContent inp content := by
  unfold mainModel
  rw [h1]

/-- Whatever the tool does, the staged scratch file still exists afterwards. -/
theorem run_batch_scratch_some (inp : MainInput) (content : String) (out : PyPath) :
    (run_batch inp content out).2.2 ≠ none := by
  unfold run_batch
  by_cases hb : (inp.cwdHasBatch || inp.pathHasBatch) = true
  · rw [if_pos hb]
    cases inp.toolRun with
    | exits code o e =>
      by_cases hc : code = 0
      · by_cases hp : inp.publishOk = true <;> simp [hc, hp]
      · simp [hc]
    | launchFailure => simp
    | interrupted => simp
  · rw [if_neg hb]
    simp

/-!
## Claim C3

`subprocess.run(..., check=True)` raises `CalledProcessError` on a nonzero
exit code; `main` catches it, reports the exit code with captured stdout and
stderr, and never reaches lines 200-201, so the output target is not written
(not created if absent, unchanged if present).  This matches the code.
-/

/-- C3: in every run where the external tool runs and exits nonzero, the
outcome is `toolFailed` carrying the exit code and the captured stdout and
stderr, and no write to the output target appears anywhere in the trace. -/
theorem C3_theorem (inp : MainInput) (content : String) (out : PyPath)
    (code : Int) (o e : String)
    (h1 : (get_source_content inp.fs inp.first inp.pasteEvents).result = some content)
    (h2 : pyStrip content ≠ "")
    (h3 : (get_output_file_path inp.outEvents).2 = .gotPath out)
    (h4 : (inp.cwdHasBatch || inp.pathHasBatch) = true)
    (h5 : inp.toolRun = .exits code o e)
    (h6 : code ≠ 0) :
    (mainModel inp).outcome = .toolFailed code o e ∧
    ∀ ev ∈ (mainModel inp).trace, ev.isWriteOutput = false := by
  have hrb : run_batch inp content out =
      ([.toolLaunch (if inp.cwdHasBatch then BatchCmd.cwdPath else BatchCmd.bareName),
        .batchFailedMsg code o e, .intermediateNoteMsg intermediate_file_path],
       .toolFailed code o e, some inp.stagedAfterTool) := by
    unfold run_batch
    rw [h5, if_pos h4]
    simp [h6]
  have hmain : mainModel inp =
      ⟨prepare_intermediate_source_file content ++ (get_output_file_path inp.outEvents).1
        ++ [.setupCompleteMsg intermediate_file_path out] ++ (run_batch inp content out).1,
       (run_batch inp content out).2.1, (run_batch inp content out).2.2⟩ := by
    rw [mainModel_resolved inp content h1]
    unfold mainWithContent
    rw [if_neg h2, h3]
  constructor
  · rw [hmain, hrb]
  · intro ev hev
    rw [hmain, hrb] at hev
    simp only [prepare_intermediate_source_file, List.mem_append, List.mem_cons,
      List.mem_singleton, List.not_mem_nil, or_false] at hev
    rcases hev with (((hev | hev | hev) | hev) | hev) | (hev | hev | hev)
    · subst hev; rfl
    · subst hev; rfl
    · subst hev; rfl
    · exact get_output_file_path_no_writeOutput inp.outEvents ev hev
    · subst hev; rfl
    · subst hev; rfl
    · subst hev; rfl
    · subst hev; rfl

/-- Concrete run for the C3 witness: the batch file is in the working
directory and the tool exits 1 with captured streams. -/
def exInput3 : MainInput :=
  { fs := [], scratch0 := none, first := .text "hello",
    pasteEvents := [.timeout], outEvents := [.line "doc.md"],
    cwdHasBatch := true, pathHasBatch := false,
    toolRun := .exits 1 "some stdout" "some stderr",
    stagedAfterTool := "tool output", publishOk := true }

/-- C3 witness: instance of the theorem on `exInput3`. -/
theorem C3_witness :
    (get_source_content exInput3.fs exInput3.first exInput3.pasteEvents).result
        = some "hello" ∧
    pyStrip "hello" ≠ "" ∧
    (get_output_file_path exInput3.outEvents).2 = .gotPath ⟨false, ["doc.md"]⟩ ∧
    (exInput3.cwdHasBatch || exInput3.pathHasBatch) = true ∧
    exInput3.toolRun = .exits 1 "some stdout" "some stderr" ∧
    (1 : Int) ≠ 0 ∧
    ((mainModel exInput3).outcome = .toolFailed 1 "some stdout" "some stderr" ∧
     ∀ ev ∈ (mainModel exInput3).trace, ev.isWriteOutput = false) :=
  ⟨by decide, by decide, by decide, by decide, by decide, by decide,
   C3_theorem exInput3 "hello" ⟨false, ["doc.md"]⟩ 1 "some stdout" "some stderr"
     (by decide) (by decide) (by decide) (by decide) (by decide) (by decide)⟩

/-!
## Claim C5

The claim says that on whitespace-only resolved content the caller
*re-prompts from step 1* and the run *does not terminate at that point*.
The code prints "No source content. Exiting." and returns from `main`
(source lines 151-153): the run terminates cleanly right there and no fresh
first-line read happens.  The graceful part of the claim (report + no crash)
holds.
-/

/-- Concrete run for claim C5: empty first line, one whitespace-only pasted
line, idle timeout. -/
def exInput5 : MainInput :=
  { fs := [], scratch0 := some "previous run", first := .text "",
    pasteEvents := [.line " ", .timeout], outEvents := [],
    cwdHasBatch := false, pathHasBatch := false,
    toolRun := .exits 0 "" "", stagedAfterTool := "", publishOk := true }

/-- C5 counterexample: after whitespace-only finalization the run terminates
immediately (outcome `exitNoContent`) with only the "no source content"
message — there is no re-prompt (no further prompt event in the trace),
contradicting the claim's "the caller re-prompts from step 1 … does not
terminate at that point". -/
theorem C5_counterexample :
    (mainModel exInput5).outcome = .exitNoContent ∧
    (mainModel exInput5).trace = [.noSourceContentMsg] := by
  exact ⟨by decide, by decide⟩

/-- C5 (amended): whenever input resolution finalizes with content that is
whitespace-only, the program reports that no content was provided and exits
cleanly (a normal return, not a crash), without re-prompting and without
touching the staged file. -/
theorem C5_theorem (inp : MainInput) (content : String)
    (h1 : (get_source_content inp.fs inp.first inp.pasteEvents).result = some content)
    (h2 : pyStrip content = "") :
    (mainModel inp).trace = [.noSourceContentMsg] ∧
    (mainModel inp).outcome = .exitNoContent ∧
    (mainModel inp).scratch = inp.scratch0 := by
  rw [mainModel_resolved inp content h1]
  unfold mainWithContent
  rw [if_pos h2]
  exact ⟨rfl, rfl, rfl⟩

/-- C5 witness: instance of the amended theorem on `exInput5`. -/
theorem C5_witness :
    (get_source_content exInput5.fs exInput5.first exInput5.pasteEvents).result
        = some "" ∧
    pyStrip "" = "" ∧
    ((mainModel exInput5).trace = [.noSourceContentMsg] ∧
     (mainModel exInput5).outcome = .exitNoContent ∧
     (mainModel exInput5).scratch = exInput5.scratch0) :=
  ⟨by decide, by decide, C5_theorem exInput5 "" (by decide) (by decide)⟩

/-!
## Claim C9

When resolution is cancelled by an interrupt (first line or paste loop) the
resolver returns `""`; when it yields whitespace-only content (including an
existing file whose content is whitespace-only) the stripped content is also
empty.  In all these cases `main` returns before `prepare_intermediate_source_file`
(source lines 150-153), so no file-system write happens: the scratch
directory is not created and the staged file is untouched.
-/

/-- C9: if the resolver returns content that is empty after stripping (which
is what it returns on a user interrupt during the first-line read or the
paste loop, and what an existing whitespace-only file resolves to), the run
performs no file-system write at all and the staged file keeps its previous
state. -/
theorem C9_theorem (inp : MainInput) (content : String)
    (h1 : (get_source_content inp.fs inp.first inp.pasteEvents).result = some content)
    (h2 : pyStrip content = "") :
    (∀ ev ∈ (mainModel inp).trace, ev.isFsWrite = false) ∧
    (mainModel inp).scratch = inp.scratch0 ∧
    (mainModel inp).trace = [.noSourceContentMsg] := by
  rw [mainModel_resolved inp content h1]
  unfold mainWithContent
  rw [if_pos h2]
  refine ⟨?_, rfl, rfl⟩
  intro ev hev
  simp only [List.mem_singleton] at hev
  subst hev
  rfl

/-- Concrete run for the C9 witness: the first line names an existing file
whose content is whitespace-only. -/
def exInput9 : MainInput :=
  { fs := [("w.txt", FSEntry.file "  \n ")], scratch0 := some "keep me",
    first := .text "w.txt", pasteEvents := [], outEvents := [],
    cwdHasBatch := true, pathHasBatch := true,
    toolRun := .exits 0 "" "", stagedAfterTool := "", publishOk := true }

/-- C9 witness: instance of the theorem on `exInput9`. -/
theorem C9_witness :
    (get_source_content exInput9.fs exInput9.first exInput9.pasteEvents).result
        = some "  \n " ∧
    pyStrip "  \n " = "" ∧
    ((∀ ev ∈ (mainModel exInput9).trace, ev.isFsWrite = false) ∧
     (mainModel exInput9).scratch = exInput9.scratch0 ∧
     (mainModel exInput9).trace = [.noSourceContentMsg]) :=
  ⟨by decide, by decide, C9_theorem exInput9 "  \n " (by decide) (by decide)⟩

/-!
## Claim C6

The claim says the orchestrator locates the executable *before invoking
anything* — co-located path first, otherwise resolution through the
environment's search mechanism — and that when neither lookup resolves it
returns `ToolNotFound` without launching.  The code (source lines 174-184)
only checks the current working directory; when the batch file is not there
it *always* proceeds to call `subprocess.run` with the bare name and lets the
launcher search `PATH`, classifying the resulting `FileNotFoundError` (line
211) after the fact.  So in a run where neither location has the tool, the
invocation is still attempted — there is no pre-invocation search-path
lookup.  (No child process comes into existence, and the outcome reported is
indeed tool-not-found.)
-/

/-- Concrete run for claim C6: content resolves, an output path is given, and
the batch file is neither in the working directory nor on `PATH`. -/
def exInput6 : MainInput :=
  { fs := [], scratch0 := none, first := .text "hello",
    pasteEvents := [.timeout], outEvents := [.line "doc.md"],
    cwdHasBatch := false, pathHasBatch := false,
    toolRun := .exits 0 "" "", stagedAfterTool := "", publishOk := true }

/-- C6 counterexample: with the tool in neither location, the trace still
contains the invocation attempt (`toolLaunch` with the bare name — the call
into `subprocess.run`), contradicting the claim's "returns `ToolNotFound`
without invoking anything"; the outcome is nevertheless `toolNotFound`. -/
theorem C6_counterexample :
    Ev.toolLaunch BatchCmd.bareName ∈ (mainModel exInput6).trace ∧
    (mainModel exInput6).outcome = .toolNotFound := by
  exact ⟨by decide, by decide⟩

/-- C6 (amended): the orchestrator prefers the batch file co-located with the
current working directory and otherwise passes the bare name to the process
launcher; the invocation is attempted in every run that reaches the tool
stage (there is no separate pre-invocation search-path lookup), and when the
tool is in neither location the attempt fails with executable-not-found,
which is reported as tool-not-found, with no write to the output target and
the staged content preserved. -/
theorem C6_theorem (inp : MainInput) (content : String) (out : PyPath)
    (h1 : (get_source_content inp.fs inp.first inp.pasteEvents).result = some content)
    (h2 : pyStrip content ≠ "")
    (h3 : (get_output_file_path inp.outEvents).2 = .gotPath out) :
    Ev.toolLaunch (if inp.cwdHasBatch then BatchCmd.cwdPath else BatchCmd.bareName)
        ∈ (mainModel inp).trace ∧
    (inp.cwdHasBatch = false → inp.pathHasBatch = false →
      (mainModel inp).outcome = .toolNotFound ∧
      (∀ ev ∈ (mainModel inp).trace, ev.isWriteOutput = false) ∧
      (mainModel inp).scratch = some content) := by
  have hmain : mainModel inp =
      ⟨prepare_intermediate_source_file content ++ (get_output_file_path inp.outEvents).1
        ++ [.setupCompleteMsg intermediate_file_path out] ++ (run_batch inp content out).1,
       (run_batch inp content out).2.1, (run_batch inp content out).2.2⟩ := by
    rw [mainModel_resolved inp content h1]
    unfold mainWithContent
    rw [if_neg h2, h3]
  constructor
  · rw [hmain]
    have hlaunch :
        Ev.toolLaunch (if inp.cwdHasBatch then BatchCmd.cwdPath else BatchCmd.bareName)
          ∈ (run_batch inp content out).1 := by
      unfold run_batch
      by_cases hb : (inp.cwdHasBatch || inp.pathHasBatch) = true
      · rw [if_pos hb]
        cases inp.toolRun with
        | exits code o e =>
          by_cases hc : code = 0
          · by_cases hp : inp.publishOk = true <;> simp [hc, hp]
          · simp [hc]
        | launchFailure => simp
        | interrupted => simp
      · rw [if_neg hb]
        simp
    simp only [List.mem_append]
    exact Or.inr hlaunch
  · intro hcwd hpath
    have hrb : run_batch inp content out =
        ([.toolLaunch BatchCmd.bareName, .cmdNotFoundMsg BatchCmd.bareName],
         .toolNotFound, some content) := by
      unfold run_batch
      rw [hcwd, hpath]
      simp
    rw [hmain, hrb]
    refine ⟨rfl, ?_, rfl⟩
    intro ev hev
    simp only [prepare_intermediate_source_file, List.mem_append, List.mem_cons,
      List.mem_singleton, List.not_mem_nil, or_false] at hev
    rcases hev with (((hev | hev | hev) | hev) | hev) | (hev | hev)
    · subst hev; rfl
    · subst hev; rfl
    · subst hev; rfl
    · exact get_output_file_path_no_writeOutput inp.outEvents ev hev
    · subst hev; rfl
    · subst hev; rfl
    · subst hev; rfl

/-- C6 witness: instance of the amended theorem on `exInput6`. -/
theorem C6_witness :
    (get_source_content exInput6.fs exInput6.first exInput6.pasteEvents).result
        = some "hello" ∧
    pyStrip "hello" ≠ "" ∧
    (get_output_file_path exInput6.outEvents).2 = .gotPath ⟨false, ["doc.md"]⟩ ∧
    (Ev.toolLaunch (if exInput6.cwdHasBatch then BatchCmd.cwdPath else BatchCmd.bareName)
        ∈ (mainModel exInput6).trace ∧
    (exInput6.cwdHasBatch = false → exInput6.pathHasBatch = false →
      (mainModel exInput6).outcome = .toolNotFound ∧
      (∀ ev ∈ (mainModel exInput6).trace, ev.isWriteOutput = false) ∧
      (mainModel exInput6).scratch = some "hello")) :=
  ⟨by decide, by decide, by decide,
   C6_theorem exInput6 "hello" ⟨false, ["doc.md"]⟩ (by decide) (by decide) (by decide)⟩

/-!
## Claim C7

Whenever a fatal failure occurs after staging, the staged file's location has
been reported to the user: it is printed at staging time ("Source content
written to: …", line 123) and again in the setup summary ("Intermediate: …",
line 165), both of which precede any tool invocation, and additionally in the
`CalledProcessError` branch (line 210).  The staged file itself is never
deleted.  So the claim holds: in every failing run the trace contains a
message naming the staged file, and the staged content is still on disk.
-/

/-- C7: every run whose outcome is a fatal failure occurring after staging
(tool exited nonzero, tool not found at invocation time, process-launch or
publish failure) has printed the staged file's location, and the staged file
still holds content — nothing is silently dropped. -/
theorem C7_theorem (inp : MainInput)
    (h : ((mainModel inp).outcome).fatalAfterStaging = true) :
    (∃ ev ∈ (mainModel inp).trace, ev.namesIntermediate = true) ∧
    (mainModel inp).scratch ≠ none := by
  rcases hres : (get_source_content inp.fs inp.first inp.pasteEvents).result
    with _ | content
  · rw [show mainModel inp = ⟨[], .blockedOnInput, inp.scratch0⟩ from by
      unfold mainModel; rw [hres]] at h
    simp [Outcome.fatalAfterStaging] at h
  · rw [mainModel_resolved inp content hres] at h ⊢
    by_cases h2 : pyStrip content = ""
    · rw [show mainWithContent inp content =
          ⟨[.noSourceContentMsg], .exitNoContent, inp.scratch0⟩ from by
        unfold mainWithContent; rw [if_pos h2]] at h
      simp [Outcome.fatalAfterStaging] at h
    · rcases hout : (get_output_file_path inp.outEvents).2 with out | _ | _
      · rw [show mainWithContent inp content =
            ⟨prepare_intermediate_source_file content
              ++ (get_output_file_path inp.outEvents).1
              ++ [.setupCompleteMsg intermediate_file_path out]
              ++ (run_batch inp content out).1,
             (run_batch inp content out).2.1, (run_batch inp content out).2.2⟩ from by
          unfold mainWithContent; rw [if_neg h2, hout]]
        refine ⟨⟨.sourceWrittenMsg intermediate_file_path, ?_, rfl⟩,
          run_batch_scratch_some inp content out⟩
        simp [prepare_intermediate_source_file, List.mem_append]
      · rw [show mainWithContent inp content =
            ⟨prepare_intermediate_source_file content
              ++ (get_output_file_path inp.outEvents).1 ++ [.cancelledSetupMsg],
             .cancelledSetup, some content⟩ from by
          unfold mainWithContent; rw [if_neg h2, hout]] at h
        simp [Outcome.fatalAfterStaging] at h
      · rw [show mainWithContent inp content =
            ⟨prepare_intermediate_source_file content
              ++ (get_output_file_path inp.outEvents).1,
             .blockedOnInput, some content⟩ from by
          unfold mainWithContent; rw [if_neg h2, hout]] at h
        simp [Outcome.fatalAfterStaging] at h

/-- Concrete run for the C7 witness: the tool launches but the launch fails
with a non-`FileNotFoundError` error after the file was staged. -/
def exInput7 : MainInput :=
  { fs := [], scratch0 := none, first := .text "hello",
    pasteEvents := [.timeout], outEvents := [.line "doc.md"],
    cwdHasBatch := true, pathHasBatch := false,
    toolRun := .launchFailure, stagedAfterTool := "", publishOk := true }

/-- C7 witness: instance of the theorem on `exInput7`. -/
theorem C7_witness :
    ((mainModel exInput7).outcome).fatalAfterStaging = true ∧
    ((∃ ev ∈ (mainModel exInput7).trace, ev.namesIntermediate = true) ∧
     (mainModel exInput7).scratch ≠ none) :=
  ⟨by decide, C7_theorem exInput7 (by decide)⟩

/-!
## Claim C10

In `main`, staging (line 155) is sequenced strictly before the output-path
prompt (line 156): when the prompt is shown, the staged file has already been
written.  Cancelling at the output prompt unwinds through line 158 and leaves
the freshly staged file on disk.
-/

/-- C10: in every run where content resolves, the trace begins with the
scratch-directory creation, the staged write of the resolved content and its
report, and only then the output-path prompt; and if the output-path phase is
cancelled the run ends as cancelled-setup with the new staged content still
on disk. -/
theorem C10_theorem (inp : MainInput) (content : String)
    (h1 : (get_source_content inp.fs inp.first inp.pasteEvents).result = some content)
    (h2 : pyStrip content ≠ "") :
    (∃ rest, (mainModel inp).trace =
        .mkdirScratch :: .writeStaged content ::
        .sourceWrittenMsg intermediate_file_path :: .outputPrompt :: rest) ∧
    ((get_output_file_path inp.outEvents).2 = .cancelled →
      (mainModel inp).outcome = .cancelledSetup ∧
      (mainModel inp).scratch = some content) := by
  obtain ⟨tl, htl⟩ := get_output_file_path_starts_prompt inp.outEvents
  rw [mainModel_resolved inp content h1]
  rcases hout : (get_output_file_path inp.outEvents).2 with out | _ | _
  · rw [show mainWithContent inp content =
        ⟨prepare_intermediate_source_file content
          ++ (get_output_file_path inp.outEvents).1
          ++ [.setupCompleteMsg intermediate_file_path out]
          ++ (run_batch inp content out).1,
         (run_batch inp content out).2.1, (run_batch inp content out).2.2⟩ from by
      unfold mainWithContent; rw [if_neg h2, hout]]
    refine ⟨⟨tl ++ [.setupCompleteMsg intermediate_file_path out]
        ++ (run_batch inp content out).1, ?_⟩, ?_⟩
    · show prepare_intermediate_source_file content
          ++ (get_output_file_path inp.outEvents).1 ++ _ ++ _ = _
      rw [htl]
      simp [prepare_intermediate_source_file]
    · intro hc
      simp at hc
  · rw [show mainWithContent inp content =
        ⟨prepare_intermediate_source_file content
          ++ (get_output_file_path inp.outEvents).1 ++ [.cancelledSetupMsg],
         .cancelledSetup, some content⟩ from by
      unfold mainWithContent; rw [if_neg h2, hout]]
    refine ⟨⟨tl ++ [.cancelledSetupMsg], ?_⟩, fun _ => ⟨rfl, rfl⟩⟩
    show prepare_intermediate_source_file content
        ++ (get_output_file_path inp.outEvents).1 ++ _ = _
    rw [htl]
    simp [prepare_intermediate_source_file]
  · rw [show mainWithContent inp content =
        ⟨prepare_intermediate_source_file content
          ++ (get_output_file_path inp.outEvents).1,
         .blockedOnInput, some content⟩ from by
      unfold mainWithContent; rw [if_neg h2, hout]]
    refine ⟨⟨tl, ?_⟩, ?_⟩
    · show prepare_intermediate_source_file content
          ++ (get_output_file_path inp.outEvents).1 = _
      rw [htl]
      simp [prepare_intermediate_source_file]
    · intro hc
      simp at hc

/-- Concrete run for the C10 witness: content resolves and the user cancels
at the output-path prompt. -/
def exInput10 : MainInput :=
  { fs := [], scratch0 := some "stale content", first := .text "hello",
    pasteEvents := [.timeout], outEvents := [.interrupt],
    cwdHasBatch := false, pathHasBatch := false,
    toolRun := .exits 0 "" "", stagedAfterTool := "", publishOk := true }

/-- C10 witness: instance of the theorem on `exInput10` (cancelled at the
output prompt, staged file freshly overwritten). -/
theorem C10_witness :
    (get_source_content exInput10.fs exInput10.first exInput10.pasteEvents).result
        = some "hello" ∧
    pyStrip "hello" ≠ "" ∧
    ((∃ rest, (mainModel exInput10).trace =
        .mkdirScratch :: .writeStaged "hello" ::
        .sourceWrittenMsg intermediate_file_path :: .outputPrompt :: rest) ∧
    ((get_output_file_path exInput10.outEvents).2 = .cancelled →
      (mainModel exInput10).outcome = .cancelledSetup ∧
      (mainModel exInput10).scratch = some "hello")) :=
  ⟨by decide, by decide, C10_theorem exInput10 "hello" (by decide) (by decide)⟩

end FileToMarkdown
